import Mathlib

/-!
Verification of the HelseJournal document-management application:
the tree projector (year → institution/clinician → document leaves),
the search orchestrator (index hits joined against the document store,
with a relational fallback), and the frontend API client helpers
(auth interceptor, upload form-data construction, search gating).

The frontend TypeScript code (SearchBar, Sidebar, services/api) is
embedded directly; the backend tree/search logic is not part of the
source tree, so it is modelled from the specification (§4.1, §4.2),
as indicated on each such definition.
-/

namespace HelseJournal

/-- The `Document` entity: metadata record of one uploaded file
(fields as in the frontend `Document` interface, plus the creation
timestamp from the spec's data model, §3). -/
structure Document where
  id : Nat
  title : String
  original_filename : String
  file_size : Nat
  year : Option Int
  hospital : Option String
  doctor : Option String
  is_favorite : Bool
  note_count : Nat
  created_at : Nat
deriving DecidableEq

/-- A document-leaf `TreeNode` (kind `document`): carries the
back-reference `document_id` (frontend `TreeNode` interface). -/
structure DocumentLeaf where
  id : String
  name : String
  document_id : Nat
deriving DecidableEq

/-- A second-level `TreeNode` (kind `hospital`): institution or
clinician sub-group whose children are document leaves. -/
structure HospitalNode where
  id : String
  name : String
  children : List DocumentLeaf
deriving DecidableEq

/-- A top-level `TreeNode` (kind `year`): year group whose children
are the institution/clinician sub-groups. -/
structure YearNode where
  id : String
  name : String
  children : List HospitalNode
deriving DecidableEq

/-- Descending order on years: `yearRel a b` holds when `a ≥ b`. -/
def yearRel (a b : Int) : Prop := b ≤ a

instance : DecidableRel yearRel := fun a b => inferInstanceAs (Decidable (b ≤ a))

instance : IsTotal Int yearRel := ⟨fun a b => le_total b a⟩

instance : IsTrans Int yearRel := ⟨fun _ _ _ hab hbc => le_trans hbc hab⟩

/-- The characters of a string, lower-cased. -/
def lowerChars (s : String) : List Char := s.toList.map Char.toLower

/-- Lexicographic comparison of character lists. -/
def charListLe : List Char → List Char → Bool
  | [], _ => true
  | _ :: _, [] => false
  | c :: cs, d :: ds => if c < d then true else if d < c then false else charListLe cs ds

theorem charListLe_total : ∀ a b, charListLe a b = true ∨ charListLe b a = true
  | [], _ => Or.inl rfl
  | _ :: _, [] => Or.inr rfl
  | c :: cs, d :: ds => by
    rcases lt_trichotomy c d with h | h | h
    · exact Or.inl (by simp [charListLe, h])
    · subst h
      rcases charListLe_total cs ds with h' | h'
      · exact Or.inl (by simp [charListLe, lt_irrefl, h'])
      · exact Or.inr (by simp [charListLe, lt_irrefl, h'])
    · exact Or.inr (by simp [charListLe, h])

theorem charListLe_trans :
    ∀ a b c, charListLe a b = true → charListLe b c = true → charListLe a c = true
  | [], _, _ => fun _ _ => rfl
  | x :: xs, [], _ => fun hab _ => by simp [charListLe] at hab
  | x :: xs, y :: ys, [] => fun _ hbc => by simp [charListLe] at hbc
  | x :: xs, y :: ys, z :: zs => fun hab hbc => by
    simp only [charListLe] at hab hbc ⊢
    by_cases hxy : x < y <;> by_cases hyz : y < z <;>
      simp only [hxy, hyz, if_pos, if_neg, if_true, if_false] at hab hbc
    · have hxz : x < z := lt_trans hxy hyz
      simp [hxz]
    · by_cases hzy : z < y
      · simp [hzy] at hbc
      · have : y = z := le_antisymm (le_of_not_lt hzy) (le_of_not_lt hyz)
        subst this
        simp [hxy]
    · by_cases hyx : y < x
      · simp [hyx] at hab
      · have : x = y := le_antisymm (le_of_not_lt hyx) (le_of_not_lt hxy)
        subst this
        simp [hyz]
    · by_cases hyx : y < x
      · simp [hyx] at hab
      · have hxy' : x = y := le_antisymm (le_of_not_lt hyx) (le_of_not_lt hxy)
        subst hxy'
        by_cases hzy : z < x
        · simp [hzy] at hbc
        · have : x = z := le_antisymm (le_of_not_lt hzy) (le_of_not_lt hyz)
          subst this
          simp only [lt_irrefl, if_false] at hab hbc ⊢
          exact charListLe_trans xs ys zs hab hbc

/-- Case-insensitive alphabetical order on sub-group names. -/
def nameRel (a b : String) : Prop := charListLe (lowerChars a) (lowerChars b) = true

instance : DecidableRel nameRel := fun a b =>
  inferInstanceAs (Decidable (charListLe (lowerChars a) (lowerChars b) = true))

instance : IsTotal String nameRel := ⟨fun a b => charListLe_total (lowerChars a) (lowerChars b)⟩

instance : IsTrans String nameRel :=
  ⟨fun _ _ _ hab hbc => charListLe_trans _ _ _ hab hbc⟩

/-- Leaf order within a sub-group: creation timestamp descending,
ties broken by document identifier ascending (spec §4.1 step 3). -/
def docRel (a b : Document) : Prop :=
  b.created_at < a.created_at ∨ (a.created_at = b.created_at ∧ a.id ≤ b.id)

instance : DecidableRel docRel := fun a b =>
  inferInstanceAs (Decidable (b.created_at < a.created_at ∨
    (a.created_at = b.created_at ∧ a.id ≤ b.id)))

instance : IsTotal Document docRel := by
  constructor
  intro a b
  rcases Nat.lt_trichotomy a.created_at b.created_at with h | h | h
  · exact Or.inr (Or.inl h)
  · rcases Nat.le_total a.id b.id with hid | hid
    · exact Or.inl (Or.inr ⟨h, hid⟩)
    · exact Or.inr (Or.inr ⟨h.symm, hid⟩)
  · exact Or.inl (Or.inl h)

instance : IsTrans Document docRel := by
  constructor
  intro a b c hab hbc
  unfold docRel at *
  rcases hab with h1 | ⟨h1, h2⟩ <;> rcases hbc with h3 | ⟨h3, h4⟩
  · exact Or.inl (by omega)
  · exact Or.inl (by omega)
  · exact Or.inl (by omega)
  · exact Or.inr (by omega)

/-- Modelled from the spec: the grouping key for the second tree level
(§4.1 step 2): institution name if present, else clinician name if
present, else the generic `"Other"` bucket. The backend implementation
is not in the source tree. -/
def subKey (d : Document) : String :=
  match d.hospital with
  | some h => h
  | none =>
    match d.doctor with
    | some c => c
    | none => "Other"

/-- Modelled from the spec: distinct upload years present in the
collection, sorted descending (§4.1 step 1). -/
def sortedYears (docs : List Document) : List Int :=
  List.insertionSort yearRel (docs.filterMap (fun d => d.year)).dedup

/-- Modelled from the spec: ordered top-level year keys — the distinct
years descending, followed by `none` (the "Unsorted" group) when some
document has no year (§4.1 step 1). -/
def yearKeys (docs : List Document) : List (Option Int) :=
  (sortedYears docs).map some ++
    (if docs.any (fun d => d.year.isNone) then [(none : Option Int)] else [])

/-- Modelled from the spec: the documents of one year group (`none`
selects the documents with no year). -/
def docsOfYear (docs : List Document) (y : Option Int) : List Document :=
  docs.filter (fun d => decide (d.year = y))

/-- Modelled from the spec: ordered sub-group keys within a year group
(§4.1 step 2): alphabetical, case-insensitive, `"Other"` last. -/
def subKeys (g : List Document) : List String :=
  List.insertionSort nameRel ((g.map subKey).dedup.filter (fun k => decide (k ≠ "Other"))) ++
    (if "Other" ∈ (g.map subKey).dedup then ["Other"] else [])

/-- Modelled from the spec: the documents of one sub-group. -/
def docsOfSub (g : List Document) (k : String) : List Document :=
  g.filter (fun d => decide (subKey d = k))

/-- Modelled from the spec: sub-group documents ordered by creation
timestamp descending, ties by identifier ascending (§4.1 step 3). -/
def sortedLeafDocs (g : List Document) (k : String) : List Document :=
  List.insertionSort docRel (docsOfSub g k)

/-- Modelled from the spec: a document leaf node (identifier
synthesized from the grouping path, title as display name, §3). -/
def mkLeaf (d : Document) : DocumentLeaf :=
  { id := "doc-" ++ toString d.id, name := d.title, document_id := d.id }

/-- Modelled from the spec: one institution/clinician sub-group node. -/
def mkSubGroup (g : List Document) (k : String) : HospitalNode :=
  { id := "hospital-" ++ k, name := k,
    children := (sortedLeafDocs g k).map mkLeaf }

/-- Display name of a year group: the year, or "Unsorted" for the
group of documents with no year. -/
def yearName : Option Int → String
  | some y => toString y
  | none => "Unsorted"

/-- Modelled from the spec: one top-level year group node. -/
def mkYearGroup (docs : List Document) (y : Option Int) : YearNode :=
  { id := "year-" ++ yearName y, name := yearName y,
    children := (subKeys (docsOfYear docs y)).map (mkSubGroup (docsOfYear docs y)) }

/-- Modelled from the spec: the Tree Projector `buildTree` (§4.1) —
projects the flat document collection into the year →
institution/clinician → document-leaf hierarchy. The backend
implementation is not in the source tree. -/
def buildTree (docs : List Document) : List YearNode :=
  (yearKeys docs).map (mkYearGroup docs)

/-- The document count the Sidebar computes over the tree
(`Sidebar.tsx`: nested `reduce` over `year.children` and
`hospital.children.length`). -/
def treeDocCount (tree : List YearNode) : Nat :=
  tree.foldl (fun acc y => acc + y.children.foldl (fun a h => a + h.children.length) 0) 0

/-- A `SearchResult` record (frontend `SearchResult` interface in
`SearchBar.tsx`: id, title, original_filename, optional
year/hospital/doctor, optional highlight, score). -/
structure SearchResult where
  id : Nat
  title : String
  original_filename : String
  year : Option Int
  hospital : Option String
  doctor : Option String
  highlight : Option String
  score : Int
deriving DecidableEq

/-- One ranked hit returned by the Search Index: document identifier,
relevance score, highlighted snippet (spec §6, Search Index interface). -/
structure IndexHit where
  id : Nat
  score : Int
  snippet : String
deriving DecidableEq

/-- The Search Index collaborator: possibly unavailable; when queried,
returns a ranked sequence of hits (spec §6). -/
structure SearchIndex where
  available : Bool
  hits : String → List IndexHit

/-- The structured search filters (`GET /documents/search?q=&year=&hospital=`). -/
structure Filters where
  year : Option Int
  hospital : Option String
deriving DecidableEq

/-- Modelled from the spec: exact-match application of the structured
filters against a joined Document record (§4.2). -/
def filtersMatch (f : Filters) (d : Document) : Bool :=
  (match f.year with
   | none => true
   | some y => decide (d.year = some y)) &&
  (match f.hospital with
   | none => true
   | some h => decide (d.hospital = some h))

/-- The query's characters with leading and trailing whitespace
stripped (the "after trimming" of spec §4.2). -/
def trimmed (q : String) : List Char :=
  ((q.toList.dropWhile Char.isWhitespace).reverse.dropWhile Char.isWhitespace).reverse

/-- Modelled from the spec: plain case-insensitive substring
containment of the query over title / institution / clinician /
filename (§4.2 relational fallback). -/
def matchesText (q : String) (d : Document) : Bool :=
  let n := lowerChars q
  decide (n <:+: lowerChars d.title) ||
  decide (n <:+: lowerChars (d.hospital.getD "")) ||
  decide (n <:+: lowerChars (d.doctor.getD "")) ||
  decide (n <:+: lowerChars d.original_filename)

/-- Modelled from the spec: a search result built from an index hit
joined with its Document (snippet and score from the hit). -/
def toIndexResult (d : Document) (h : IndexHit) : SearchResult :=
  { id := d.id, title := d.title, original_filename := d.original_filename,
    year := d.year, hospital := d.hospital, doctor := d.doctor,
    highlight := some h.snippet, score := h.score }

/-- Modelled from the spec: a search result built by the relational
fallback — no snippet, no relevance ranking (score 0). -/
def toFallbackResult (d : Document) : SearchResult :=
  { id := d.id, title := d.title, original_filename := d.original_filename,
    year := d.year, hospital := d.hospital, doctor := d.doctor,
    highlight := none, score := 0 }

/-- Modelled from the spec: the Search Orchestrator (§4.2). Returns the
result sequence together with a flag recording whether the Search
Index was queried. Policy: trimmed queries shorter than 2 return empty
without touching the index; otherwise, if the index is available its
ranked hits are joined against the store (stale hits silently dropped,
filters applied as exact-match post-filter, index order preserved); if
the index is unavailable, a relational case-insensitive substring
match over title/institution/clinician/filename is used, ordered by
creation timestamp descending. The backend implementation is not in
the source tree. -/
def search (store : List Document) (idx : SearchIndex) (q : String) (f : Filters) :
    List SearchResult × Bool :=
  if (trimmed q).length < 2 then ([], false)
  else if idx.available then
    ((idx.hits q).filterMap (fun h =>
      match store.find? (fun d => decide (d.id = h.id)) with
      | some d => if filtersMatch f d then some (toIndexResult d h) else none
      | none => none), true)
  else
    ((List.insertionSort docRel
        (store.filter (fun d => matchesText q d && filtersMatch f d))).map toFallbackResult,
     false)

/-- The SearchBar's client-side gate (`SearchBar.tsx`:
`enabled: query.length >= 2`): whether the search request is issued
at all for the current input value. -/
def searchEnabled (q : String) : Bool :=
  q.length ≥ 2

/-- An API error as seen by the axios response interceptor
(`services/api`): the HTTP status of the response, absent when the
request failed without a response. -/
structure ApiError where
  status : Option Nat
deriving DecidableEq

/-- The relevant browser state for the response interceptor:
`localStorage` as an association list, and `window.location.href`. -/
structure ClientState where
  storage : List (String × String)
  location : String
deriving DecidableEq

/-- The axios response-error interceptor (`services/api`): on status
401 it removes the `auth-storage` key from localStorage and navigates
to `/login`; in every case it rejects with the original error
(`return Promise.reject(error)`). -/
def handleResponseError (err : ApiError) (st : ClientState) : ClientState × ApiError :=
  if err.status = some 401 then
    ({ storage := st.storage.filter (fun kv => decide (kv.1 ≠ "auth-storage")),
       location := "/login" }, err)
  else
    (st, err)

/-- A JavaScript value as it can appear in the upload metadata record. -/
inductive JsValue where
  | undef : JsValue
  | null : JsValue
  | str : String → JsValue
  | num : Int → JsValue
  | bool : Bool → JsValue
deriving DecidableEq

/-- JavaScript `String(value)` conversion for the metadata values. -/
def JsValue.toStr : JsValue → String
  | .undef => "undefined"
  | .null => "null"
  | .str s => s
  | .num n => toString n
  | .bool b => if b then "true" else "false"

/-- The multipart form-data built by `documentsApi.upload`
(`services/api`): the file entry, then — iterating the metadata
entries in order — each entry whose value is neither `undefined` nor
`null`, appended with its value converted by `String(value)`. -/
def buildUploadFormData (file : String) (metadata : Option (List (String × JsValue))) :
    List (String × String) :=
  let fd := [("file", file)]
  match metadata with
  | none => fd
  | some m =>
    m.foldl (fun acc kv =>
      if kv.2 ≠ JsValue.undef ∧ kv.2 ≠ JsValue.null then
        acc ++ [(kv.1, kv.2.toStr)]
      else acc) fd

/-! ### Helper lemmas -/

theorem foldl_add_eq (f : α → Nat) :
    ∀ (l : List α) (n : Nat), l.foldl (fun acc x => acc + f x) n = n + (l.map f).sum
  | [], n => by simp
  | x :: l, n => by
    simp only [List.foldl_cons, List.map_cons, List.sum_cons, foldl_add_eq f l]
    omega

theorem treeDocCount_eq (t : List YearNode) :
    treeDocCount t = (t.map (fun y => (y.children.map (fun h => h.children.length)).sum)).sum := by
  rw [treeDocCount, foldl_add_eq]
  simp only [Nat.zero_add]
  congr 1
  apply List.map_congr_left
  intro y _
  rw [foldl_add_eq]
  simp

theorem length_filter_add (p : α → Bool) :
    ∀ l : List α, (l.filter p).length + (l.filter (fun a => !(p a))).length = l.length
  | [] => rfl
  | x :: l => by
    have := length_filter_add p l
    by_cases h : p x = true
    · simp [List.filter_cons, h]
      omega
    · have h' : p x = false := by simpa using h
      simp [List.filter_cons, h']
      omega

theorem sum_length_filter_partition {α β : Type} [DecidableEq β] (key : α → β) :
    ∀ (K : List β) (l : List α), K.Nodup → (∀ a ∈ l, key a ∈ K) →
      (K.map (fun k => (l.filter (fun a => decide (key a = k))).length)).sum = l.length
  | [], l, _, hcov => by
    have hl : l = [] := List.eq_nil_iff_forall_not_mem.mpr (fun a ha => by simpa using hcov a ha)
    subst hl
    rfl
  | k :: K, l, hnd, hcov => by
    have hndK : K.Nodup := (List.nodup_cons.mp hnd).2
    have hkK : k ∉ K := (List.nodup_cons.mp hnd).1
    simp only [List.map_cons, List.sum_cons]
    have hmap : ∀ k' ∈ K,
        (l.filter (fun a => decide (key a = k'))).length
          = ((l.filter (fun a => !(decide (key a = k)))).filter
              (fun a => decide (key a = k'))).length := by
      intro k' hk'
      rw [List.filter_filter]
      congr 1
      apply List.filter_congr
      intro a _
      by_cases h : key a = k'
      · have hne : key a ≠ k := fun hh => hkK ((hh.symm.trans h).symm ▸ hk')
        have hkk' : ¬ k' = k := fun he => hne (h.trans he)
        simp [h, hne, hkk']
      · simp [h]
    have hsum : (K.map (fun k' => (l.filter (fun a => decide (key a = k'))).length)).sum
        = (K.map (fun k' => ((l.filter (fun a => !(decide (key a = k)))).filter
            (fun a => decide (key a = k'))).length)).sum := by
      congr 1
      exact List.map_congr_left hmap
    rw [hsum,
      sum_length_filter_partition key K (l.filter (fun a => !(decide (key a = k)))) hndK
        (by
          intro a ha
          have hmem := List.mem_filter.mp ha
          have hne : key a ≠ k := by simpa using hmem.2
          have := hcov a hmem.1
          rcases List.mem_cons.mp this with h | h
          · exact absurd h hne
          · exact h)]
    exact length_filter_add _ l

theorem sortedYears_nodup (docs : List Document) : (sortedYears docs).Nodup :=
  (List.perm_insertionSort yearRel _).nodup_iff.mpr (List.nodup_dedup _)

theorem yearKeys_nodup (docs : List Document) : (yearKeys docs).Nodup := by
  rw [yearKeys]
  apply List.Nodup.append
  · exact List.Nodup.map (Option.some_injective _) (sortedYears_nodup docs)
  · split <;> simp
  · intro x hx hx'
    obtain ⟨y, _, rfl⟩ := List.mem_map.mp hx
    revert hx'
    split <;> simp

theorem yearKeys_cover (docs : List Document) : ∀ d ∈ docs, d.year ∈ yearKeys docs := by
  intro d hd
  rw [yearKeys]
  cases hy : d.year with
  | some y =>
    apply List.mem_append_left
    apply List.mem_map_of_mem
    rw [sortedYears, List.mem_insertionSort, List.mem_dedup]
    exact List.mem_filterMap.mpr ⟨d, hd, hy⟩
  | none =>
    have hany : docs.any (fun d => d.year.isNone) = true :=
      List.any_eq_true.mpr ⟨d, hd, by simp [hy]⟩
    rw [if_pos hany]
    exact List.mem_append_right _ (by simp)

theorem subKeys_nodup (g : List Document) : (subKeys g).Nodup := by
  rw [subKeys]
  apply List.Nodup.append
  · exact (List.perm_insertionSort nameRel _).nodup_iff.mpr
      (List.Nodup.filter _ (List.nodup_dedup _))
  · split <;> simp
  · intro x hx hx'
    rw [List.mem_insertionSort] at hx
    have hxo : x ≠ "Other" := by simpa using (List.mem_filter.mp hx).2
    revert hx'
    split
    · intro hx'
      exact hxo (by simpa using hx')
    · intro hx'
      simp at hx'

theorem subKeys_cover (g : List Document) : ∀ d ∈ g, subKey d ∈ subKeys g := by
  intro d hd
  rw [subKeys]
  by_cases ho : subKey d = "Other"
  · have hmem : "Other" ∈ (g.map subKey).dedup :=
      List.mem_dedup.mpr (ho ▸ List.mem_map_of_mem subKey hd)
    rw [ho, if_pos hmem]
    exact List.mem_append_right _ (by simp)
  · apply List.mem_append_left
    rw [List.mem_insertionSort, List.mem_filter]
    exact ⟨List.mem_dedup.mpr (List.mem_map_of_mem subKey hd), by simpa using ho⟩

theorem mkSubGroup_children_length (g : List Document) (k : String) :
    (mkSubGroup g k).children.length = (docsOfSub g k).length := by
  simp [mkSubGroup, sortedLeafDocs, List.length_insertionSort]

theorem mkYearGroup_count (docs : List Document) (y : Option Int) :
    ((mkYearGroup docs y).children.map (fun h => h.children.length)).sum
      = (docsOfYear docs y).length := by
  rw [mkYearGroup]
  simp only [List.map_map]
  have hcongr :
      List.map ((fun h => h.children.length) ∘ mkSubGroup (docsOfYear docs y))
          (subKeys (docsOfYear docs y))
        = List.map (fun k => (docsOfSub (docsOfYear docs y) k).length)
            (subKeys (docsOfYear docs y)) :=
    List.map_congr_left (fun k _ => mkSubGroup_children_length (docsOfYear docs y) k)
  rw [hcongr]
  have := sum_length_filter_partition subKey (subKeys (docsOfYear docs y))
    (docsOfYear docs y) (subKeys_nodup _) (subKeys_cover _)
  simpa [docsOfSub] using this

/-! ### Concrete documents for witnesses (the §8 scenario) -/

/-- Scenario document A: year 2023, hospital "Oslo Clinic", created `t1 = 100`. -/
def docA : Document := ⟨1, "A", "a.pdf", 10, some 2023, some "Oslo Clinic", none, false, 0, 100⟩

/-- Scenario document B: year 2023, hospital "Oslo Clinic", created `t2 = 200 > t1`. -/
def docB : Document := ⟨2, "B", "b.pdf", 10, some 2023, some "Oslo Clinic", none, false, 0, 200⟩

/-- Scenario document C: year 2022, no hospital, doctor "Dr. Lund". -/
def docC : Document := ⟨3, "C", "c.pdf", 10, some 2022, none, some "Dr. Lund", false, 0, 50⟩

/-- Scenario document with no year (lands in the "Unsorted" group). -/
def docN : Document := ⟨4, "N", "n.pdf", 10, none, none, none, false, 0, 70⟩

/-- The scenario collection. -/
def scenarioDocs : List Document := [docA, docB, docC, docN]

/-! ### Claims about the tree projector -/

/-- C2: every document-leaf node in the tree produced by `buildTree`
carries a document identifier present in the input collection —
`buildTree` never emits a dangling leaf. -/
theorem buildTree_no_dangling_leaf (docs : List Document) :
    ∀ yg ∈ buildTree docs, ∀ sg ∈ yg.children, ∀ lf ∈ sg.children,
      lf.document_id ∈ docs.map (fun d => d.id) := by
  intro yg hyg sg hsg lf hlf
  obtain ⟨y, hy, rfl⟩ := List.mem_map.mp (by simpa [buildTree] using hyg)
  obtain ⟨k, hk, rfl⟩ := List.mem_map.mp (by simpa [mkYearGroup] using hsg)
  obtain ⟨d, hd, rfl⟩ := List.mem_map.mp (by simpa [mkSubGroup] using hlf)
  rw [sortedLeafDocs, List.mem_insertionSort] at hd
  have hd1 : d ∈ docsOfYear docs y := (List.mem_filter.mp hd).1
  have hd2 : d ∈ docs := (List.mem_filter.mp hd1).1
  exact List.mem_map.mpr ⟨d, hd2, by simp [mkLeaf]⟩

/-- Witness for C2: in the scenario tree, the leaf for document B
(inside 2023 → "Oslo Clinic") refers to an identifier of the input
collection. -/
theorem buildTree_no_dangling_leaf_witness :
    (mkLeaf docB).document_id ∈ scenarioDocs.map (fun d => d.id) :=
  buildTree_no_dangling_leaf scenarioDocs
    (mkYearGroup scenarioDocs (some 2023)) (by decide)
    (mkSubGroup (docsOfYear scenarioDocs (some 2023)) "Oslo Clinic") (by decide)
    (mkLeaf docB) (by decide)

/-- C3: the total number of document leaves across the tree produced
by `buildTree` (counted as the Sidebar does) equals the number of
documents in the input collection — nothing dropped, nothing
duplicated. -/
theorem buildTree_leaf_count (docs : List Document) :
    treeDocCount (buildTree docs) = docs.length := by
  rw [treeDocCount_eq, buildTree, List.map_map]
  have hcongr :
      List.map ((fun y => (y.children.map (fun h => h.children.length)).sum) ∘ mkYearGroup docs)
          (yearKeys docs)
        = List.map (fun y => (docsOfYear docs y).length) (yearKeys docs) :=
    List.map_congr_left (fun y _ => mkYearGroup_count docs y)
  rw [hcongr]
  have := sum_length_filter_partition (fun d : Document => d.year) (yearKeys docs) docs
    (yearKeys_nodup docs) (yearKeys_cover docs)
  simpa [docsOfYear] using this

/-- C4: the top-level year groups of `buildTree` appear in strictly
descending year order, and the "Unsorted" group (documents with no
year) always comes last. -/
theorem buildTree_year_order (docs : List Document) :
    (sortedYears docs).Pairwise (fun a b => b < a) ∧
    buildTree docs
      = (sortedYears docs).map (fun y => mkYearGroup docs (some y)) ++
        (if docs.any (fun d => d.year.isNone) then [mkYearGroup docs none] else []) := by
  constructor
  · have hs : (sortedYears docs).Pairwise yearRel := List.sorted_insertionSort yearRel _
    have hn : (sortedYears docs).Nodup := sortedYears_nodup docs
    exact (hs.and hn).imp (fun h => lt_of_le_of_ne h.1 (fun he => h.2 he.symm))
  · rw [buildTree, yearKeys, List.map_append, List.map_map]
    congr 1
    split <;> simp

/-- C5: within each sub-group of the tree produced by `buildTree`, the
document leaves are ordered by creation timestamp descending, with
ties broken by document identifier ascending: each sub-group is the
actual group for its year and sub-key, and its leaves are the images
of a permutation of that group's actual documents, sorted descending
by `created_at` with id-ascending tie-break. -/
theorem buildTree_leaf_order (docs : List Document) :
    ∀ yg ∈ buildTree docs, ∀ sg ∈ yg.children,
      ∃ y ∈ yearKeys docs, ∃ k ∈ subKeys (docsOfYear docs y),
        sg = mkSubGroup (docsOfYear docs y) k ∧
        ∃ ds : List Document,
          sg.children = ds.map mkLeaf ∧
          ds.Perm (docsOfSub (docsOfYear docs y) k) ∧
          ds.Pairwise (fun a b =>
            b.created_at < a.created_at ∨ (a.created_at = b.created_at ∧ a.id ≤ b.id)) := by
  intro yg hyg sg hsg
  obtain ⟨y, hy, rfl⟩ := List.mem_map.mp (by simpa [buildTree] using hyg)
  obtain ⟨k, hk, rfl⟩ := List.mem_map.mp (by simpa [mkYearGroup] using hsg)
  refine ⟨y, hy, k, hk, rfl, sortedLeafDocs (docsOfYear docs y) k, by simp [mkSubGroup],
    List.perm_insertionSort docRel _, ?_⟩
  have hs := List.sorted_insertionSort docRel (docsOfSub (docsOfYear docs y) k)
  exact hs.imp (fun h => h)

/-- Witness for C5: in the scenario, the 2023 → "Oslo Clinic"
sub-group lists B (created 200) before A (created 100), and the
theorem anchors its leaves to a sorted permutation of that sub-group's
actual documents. -/
theorem buildTree_leaf_order_witness :
    (mkSubGroup (docsOfYear scenarioDocs (some 2023)) "Oslo Clinic").children
        = [mkLeaf docB, mkLeaf docA] ∧
      (∃ y ∈ yearKeys scenarioDocs, ∃ k ∈ subKeys (docsOfYear scenarioDocs y),
        mkSubGroup (docsOfYear scenarioDocs (some 2023)) "Oslo Clinic"
            = mkSubGroup (docsOfYear scenarioDocs y) k ∧
        ∃ ds : List Document,
          (mkSubGroup (docsOfYear scenarioDocs (some 2023)) "Oslo Clinic").children
              = ds.map mkLeaf ∧
            ds.Perm (docsOfSub (docsOfYear scenarioDocs y) k) ∧
            ds.Pairwise (fun a b =>
              b.created_at < a.created_at ∨ (a.created_at = b.created_at ∧ a.id ≤ b.id))) :=
  ⟨by decide,
   buildTree_leaf_order scenarioDocs
     (mkYearGroup scenarioDocs (some 2023)) (by decide)
     (mkSubGroup (docsOfYear scenarioDocs (some 2023)) "Oslo Clinic") (by decide)⟩

/-! ### Claims about the search orchestrator -/

/-- C1: a query whose trimmed length is below 2 yields an empty result
sequence and never contacts the Search Index; the SearchBar gate also
keeps such raw short inputs from issuing the request at all. -/
theorem search_short_query (store : List Document) (idx : SearchIndex) (q : String)
    (f : Filters) (h : (trimmed q).length < 2) :
    search store idx q f = ([], false) ∧ (q.length < 2 → searchEnabled q = false) := by
  constructor
  · rw [search, if_pos h]
  · intro hq
    simp only [searchEnabled, decide_eq_false_iff_not]
    omega

/-- A trivial always-available Search Index with no hits. -/
def emptyIndex : SearchIndex := ⟨true, fun _ => []⟩

/-- Witness for C1: `search("a")` returns the empty sequence without
contacting the index, and the SearchBar does not issue the request. -/
theorem search_short_query_witness :
    search [] emptyIndex "a" ⟨none, none⟩ = ([], false) ∧
      ("a".length < 2 → searchEnabled "a" = false) :=
  search_short_query [] emptyIndex "a" ⟨none, none⟩ (by decide)

/-- C6: every identifier in a search result refers to a document that
exists in the store — stale index hits are silently dropped. -/
theorem search_results_subset_store (store : List Document) (idx : SearchIndex)
    (q : String) (f : Filters) :
    ∀ r ∈ (search store idx q f).1, r.id ∈ store.map (fun d => d.id) := by
  intro r hr
  rw [search] at hr
  split at hr
  · simp at hr
  · split at hr
    · obtain ⟨h, hh, heq⟩ := List.mem_filterMap.mp hr
      cases hfind : store.find? (fun d => decide (d.id = h.id)) with
      | none =>
        rw [hfind] at heq
        simp at heq
      | some d =>
        rw [hfind] at heq
        by_cases hf : filtersMatch f d = true
        · have hr' : toIndexResult d h = r := by simpa [hf] using heq
          have hd : d ∈ store := List.mem_of_find?_eq_some hfind
          exact List.mem_map.mpr ⟨d, hd, by rw [← hr']; simp [toIndexResult]⟩
        · simp [hf] at heq
    · obtain ⟨d, hd, rfl⟩ := List.mem_map.mp hr
      rw [List.mem_insertionSort] at hd
      have hds : d ∈ store := (List.mem_filter.mp hd).1
      exact List.mem_map.mpr ⟨d, hds, rfl⟩

/-- An index with a stale hit: id 99 no longer exists in the store. -/
def staleIndex : SearchIndex := ⟨true, fun _ => [⟨1, 5, "snippet"⟩, ⟨99, 4, "gone"⟩]⟩

/-- Witness for C6: with a store containing only document 1 and an
index returning ids 1 and 99, the stale id 99 is dropped and the
surviving result's identifier is in the store. -/
theorem search_results_subset_store_witness :
    (search [docA] staleIndex "blood" ⟨none, none⟩).1 = [toIndexResult docA ⟨1, 5, "snippet"⟩] ∧
      (toIndexResult docA ⟨1, 5, "snippet"⟩).id ∈ [docA].map (fun d => d.id) :=
  ⟨by decide,
   search_results_subset_store [docA] staleIndex "blood" ⟨none, none⟩
     (toIndexResult docA ⟨1, 5, "snippet"⟩) (by decide)⟩

/-- C7: when the Search Index is unreachable, `search` does not fail:
it never contacts the index and returns exactly the documents matched
by case-insensitive substring containment over
title/institution/clinician/filename (and the exact-match filters),
ordered by creation timestamp descending. -/
theorem search_index_unavailable_fallback (store : List Document) (idx : SearchIndex)
    (q : String) (f : Filters) (hav : idx.available = false)
    (hlen : 2 ≤ (trimmed q).length) :
    (search store idx q f).2 = false ∧
      ∃ ds : List Document,
        (search store idx q f).1 = ds.map toFallbackResult ∧
          ds.Perm (store.filter (fun d => matchesText q d && filtersMatch f d)) ∧
          ds.Pairwise (fun a b => b.created_at ≤ a.created_at) := by
  have hcond : ¬ (trimmed q).length < 2 := by omega
  rw [search, if_neg hcond, if_neg (by simp [hav])]
  refine ⟨rfl, List.insertionSort docRel _, rfl, List.perm_insertionSort docRel _, ?_⟩
  have hs := List.sorted_insertionSort docRel
    (store.filter (fun d => matchesText q d && filtersMatch f d))
  refine hs.imp (fun h => ?_)
  rcases h with h | ⟨h, _⟩
  · exact le_of_lt h
  · exact le_of_eq h.symm

/-- An unreachable Search Index. -/
def downIndex : SearchIndex := ⟨false, fun _ => []⟩

/-- A document whose title matches the query "headache". -/
def docH : Document := ⟨5, "Headache journal", "h.pdf", 10, some 2021, none, none, false, 0, 150⟩

/-- Witness for C7: with the index down, `search("headache")` is served
by the relational substring fallback without contacting the index. -/
theorem search_index_unavailable_fallback_witness :
    (search [docA, docH] downIndex "headache" ⟨none, none⟩).2 = false ∧
      ∃ ds : List Document,
        (search [docA, docH] downIndex "headache" ⟨none, none⟩).1 = ds.map toFallbackResult ∧
          ds.Perm ([docA, docH].filter
            (fun d => matchesText "headache" d && filtersMatch ⟨none, none⟩ d)) ∧
          ds.Pairwise (fun a b => b.created_at ≤ a.created_at) :=
  search_index_unavailable_fallback [docA, docH] downIndex "headache" ⟨none, none⟩
    (by decide) (by decide)

/-- C8: structured filters act as exact-match constraints on the
joined documents — every returned result corresponds to a stored
document satisfying the filters. -/
theorem search_filters_exact (store : List Document) (idx : SearchIndex)
    (q : String) (f : Filters) :
    ∀ r ∈ (search store idx q f).1, ∃ d ∈ store, r.id = d.id ∧ filtersMatch f d = true := by
  intro r hr
  rw [search] at hr
  split at hr
  · simp at hr
  · split at hr
    · obtain ⟨h, hh, heq⟩ := List.mem_filterMap.mp hr
      cases hfind : store.find? (fun d => decide (d.id = h.id)) with
      | none =>
        rw [hfind] at heq
        simp at heq
      | some d =>
        rw [hfind] at heq
        by_cases hf : filtersMatch f d = true
        · have hr' : toIndexResult d h = r := by simpa [hf] using heq
          exact ⟨d, List.mem_of_find?_eq_some hfind, by rw [← hr']; simp [toIndexResult], hf⟩
        · simp [hf] at heq
    · obtain ⟨d, hd, rfl⟩ := List.mem_map.mp hr
      rw [List.mem_insertionSort] at hd
      have hds := List.mem_filter.mp hd
      have hf : filtersMatch f d = true := by
        have hb := hds.2
        simp only [Bool.and_eq_true] at hb
        exact hb.2
      exact ⟨d, hds.1, rfl, hf⟩

/-- Scenario document D: year 2023 (matches the filter). -/
def docD : Document := ⟨6, "Bloodwork D", "d.pdf", 10, some 2023, none, none, false, 0, 300⟩

/-- Scenario document E: year 2021 (fails the filter). -/
def docE : Document := ⟨7, "Bloodwork E", "e.pdf", 10, some 2021, none, none, false, 0, 310⟩

/-- An index returning hits for both D and E. -/
def bloodworkIndex : SearchIndex := ⟨true, fun _ => [⟨6, 9, "bloodwork D"⟩, ⟨7, 8, "bloodwork E"⟩]⟩

/-- Witness for C8: query "bloodwork" with filter year=2023 over a
store holding D (2023) and E (2021) returns exactly D, and the
returned result satisfies the filter via the theorem. -/
theorem search_filters_exact_witness :
    (search [docD, docE] bloodworkIndex "bloodwork" ⟨some 2023, none⟩).1
        = [toIndexResult docD ⟨6, 9, "bloodwork D"⟩] ∧
      ∃ d ∈ [docD, docE],
        (toIndexResult docD ⟨6, 9, "bloodwork D"⟩).id = d.id ∧
          filtersMatch ⟨some 2023, none⟩ d = true :=
  ⟨by decide,
   search_filters_exact [docD, docE] bloodworkIndex "bloodwork" ⟨some 2023, none⟩
     (toIndexResult docD ⟨6, 9, "bloodwork D"⟩) (by decide)⟩

/-! ### Claims about the frontend API client -/

theorem lookup_removeAuth_none (l : List (String × String)) :
    (l.filter (fun kv => decide (kv.1 ≠ "auth-storage"))).lookup "auth-storage" = none := by
  induction l with
  | nil => rfl
  | cons kv l ih =>
    obtain ⟨a, b⟩ := kv
    by_cases h : a = "auth-storage"
    · rw [List.filter_cons, if_neg (by simp [h])]
      exact ih
    · rw [List.filter_cons, if_pos (by simpa using h)]
      have hbeq : ("auth-storage" == a) = false :=
        beq_eq_false_iff_ne.mpr (fun he => h he.symm)
      rw [List.lookup_cons, hbeq]
      exact ih

theorem lookup_removeAuth_other (l : List (String × String)) (k : String)
    (hk : k ≠ "auth-storage") :
    (l.filter (fun kv => decide (kv.1 ≠ "auth-storage"))).lookup k = l.lookup k := by
  induction l with
  | nil => rfl
  | cons kv l ih =>
    obtain ⟨a, b⟩ := kv
    by_cases h : a = "auth-storage"
    · rw [List.filter_cons, if_neg (by simp [h])]
      have hbeq : (k == a) = false :=
        beq_eq_false_iff_ne.mpr (fun he => hk (he.trans h))
      rw [ih, List.lookup_cons, hbeq]
    · rw [List.filter_cons, if_pos (by simpa using h)]
      rw [List.lookup_cons, List.lookup_cons]
      cases hbeq : (k == a)
      · rw [ih]
      · rfl

/-- C9: on a 401 response the interceptor clears the stored
`auth-storage` credential (leaving every other key untouched),
navigates to `/login`, and still rejects with the original error; on
any other error it rejects with the original error and leaves the
client state untouched. -/
theorem authInterceptor (err : ApiError) (st : ClientState) :
    (handleResponseError err st).2 = err ∧
    (err.status = some 401 →
      (handleResponseError err st).1.location = "/login" ∧
      (handleResponseError err st).1.storage.lookup "auth-storage" = none ∧
      ∀ k, k ≠ "auth-storage" →
        (handleResponseError err st).1.storage.lookup k = st.storage.lookup k) ∧
    (err.status ≠ some 401 → (handleResponseError err st).1 = st) := by
  refine ⟨?_, ?_, ?_⟩
  · rw [handleResponseError]
    split <;> rfl
  · intro h401
    rw [handleResponseError, if_pos h401]
    exact ⟨rfl, lookup_removeAuth_none _, fun k hk => lookup_removeAuth_other _ k hk⟩
  · intro hne
    rw [handleResponseError, if_neg hne]

/-- A concrete client state holding a credential and one other key. -/
def clientState0 : ClientState := ⟨[("auth-storage", "token"), ("theme", "dark")], "/"⟩

/-- Witness for C9: a 401 clears the credential, keeps the other key
and navigates to `/login`; a 500 leaves the state untouched. -/
theorem authInterceptor_witness :
    (handleResponseError ⟨some 401⟩ clientState0).1.location = "/login" ∧
      (handleResponseError ⟨some 401⟩ clientState0).1.storage.lookup "auth-storage" = none ∧
      (handleResponseError ⟨some 401⟩ clientState0).1.storage.lookup "theme"
          = clientState0.storage.lookup "theme" ∧
      (handleResponseError ⟨some 500⟩ clientState0).1 = clientState0 := by
  obtain ⟨-, h401, -⟩ := authInterceptor ⟨some 401⟩ clientState0
  obtain ⟨-, -, h500⟩ := authInterceptor ⟨some 500⟩ clientState0
  have hh := h401 rfl
  exact ⟨hh.1, hh.2.1, hh.2.2 "theme" (by decide), h500 (by decide)⟩

theorem foldl_formdata (m : List (String × JsValue)) :
    ∀ acc : List (String × String),
      (m.foldl (fun acc kv =>
          if kv.2 ≠ JsValue.undef ∧ kv.2 ≠ JsValue.null then
            acc ++ [(kv.1, kv.2.toStr)]
          else acc) acc)
        = acc ++ (m.filter (fun kv =>
            decide (kv.2 ≠ JsValue.undef ∧ kv.2 ≠ JsValue.null))).map
              (fun kv => (kv.1, kv.2.toStr)) := by
  induction m with
  | nil => simp
  | cons kv m ih =>
    intro acc
    by_cases h : kv.2 ≠ JsValue.undef ∧ kv.2 ≠ JsValue.null
    · simp only [List.foldl_cons, if_pos h, List.filter_cons, decide_eq_true h.elim]
      rw [ih]
      simp [h]
    · simp only [List.foldl_cons, if_neg h, List.filter_cons]
      rw [ih]
      simp [h]

/-- C10: the multipart body built for an upload is the file entry
followed by exactly the metadata entries whose value is neither
`undefined` nor `null`, each converted with `String(value)`. -/
theorem upload_formdata (file : String) (m : List (String × JsValue)) :
    buildUploadFormData file (some m)
      = ("file", file) ::
          (m.filter (fun kv => decide (kv.2 ≠ JsValue.undef ∧ kv.2 ≠ JsValue.null))).map
            (fun kv => (kv.1, kv.2.toStr)) := by
  simp only [buildUploadFormData]
  rw [foldl_formdata]
  rfl

end HelseJournal
